import Mathlib

/-!
Verification of the dosing and scheme-resolution engine of the
fertilizer-calculator application (source: `fertilizers_v2.py`).

Python dictionaries are modelled as association lists with unique keys
(key order is insertion order, assignment to an existing key keeps its
position, assignment to a new key appends).  Python floats are modelled
as exact rationals.  The mutable object heap (needed to express
`copy.deepcopy` independence of schemes) is modelled by a store mapping
addresses to scheme payloads, with schemes named by a map from name to
address; `deepcopy` allocates a fresh address carrying the same value.
Persistence (`save_config_to_json`) is modelled by a boolean `saveOk`
parameter injected into every mutating operation: `true` means the save
succeeded, `false` means it failed (the function showed an error and
returned `False`).
-/

namespace Fertilizers

/-- Python `dict` lookup (`d.get(k)` / `k in d`): first binding wins. -/
def dictGet {α β : Type} [DecidableEq α] : List (α × β) → α → Option β
  | [], _ => none
  | (a, b) :: rest, k => if a = k then some b else dictGet rest k

/-- Python `dict` assignment `d[k] = v`: existing key keeps its position,
a new key is appended at the end. -/
def dictSet {α β : Type} [DecidableEq α] : List (α × β) → α → β → List (α × β)
  | [], k, v => [(k, v)]
  | (a, b) :: rest, k, v =>
    if a = k then (k, v) :: rest else (a, b) :: dictSet rest k v

/-- Python `del d[k]`: removes the binding for `k`. -/
def removeKey {α β : Type} [DecidableEq α] : List (α × β) → α → List (α × β)
  | [], _ => []
  | (a, b) :: rest, k =>
    if a = k then removeKey rest k else (a, b) :: removeKey rest k

@[simp]
theorem dictGet_nil {α β : Type} [DecidableEq α] (k : α) :
    dictGet ([] : List (α × β)) k = none := rfl

@[simp]
theorem dictGet_cons {α β : Type} [DecidableEq α] (a : α) (b : β) (rest : List (α × β)) (k : α) :
    dictGet ((a, b) :: rest) k = if a = k then some b else dictGet rest k := rfl

theorem dictGet_dictSet_self {α β : Type} [DecidableEq α] (l : List (α × β)) (k : α) (v : β) :
    dictGet (dictSet l k v) k = some v := by
  induction l with
  | nil => simp [dictSet, dictGet]
  | cons p rest ih =>
    obtain ⟨a, b⟩ := p
    by_cases h : a = k <;> simp [dictSet, dictGet, h, ih]

theorem dictGet_dictSet_ne {α β : Type} [DecidableEq α] (l : List (α × β)) (k : α) (v : β)
    (k2 : α) (h : k2 ≠ k) : dictGet (dictSet l k v) k2 = dictGet l k2 := by
  induction l with
  | nil => simp [dictSet, dictGet, Ne.symm h]
  | cons p rest ih =>
    obtain ⟨a, b⟩ := p
    by_cases ha : a = k
    · subst ha
      simp [dictSet, dictGet, Ne.symm h]
    · by_cases hb : a = k2
      · subst hb
        simp [dictSet, ha, dictGet]
      · simp [dictSet, ha, dictGet, hb, ih]

theorem dictGet_removeKey_self {α β : Type} [DecidableEq α] (l : List (α × β)) (k : α) :
    dictGet (removeKey l k) k = none := by
  induction l with
  | nil => simp [removeKey]
  | cons p rest ih =>
    obtain ⟨a, b⟩ := p
    by_cases h : a = k <;> simp [removeKey, dictGet, h, ih]

theorem dictGet_removeKey_ne {α β : Type} [DecidableEq α] (l : List (α × β)) (k : α)
    (k2 : α) (h : k2 ≠ k) : dictGet (removeKey l k) k2 = dictGet l k2 := by
  induction l with
  | nil => simp [removeKey]
  | cons p rest ih =>
    obtain ⟨a, b⟩ := p
    by_cases ha : a = k
    · subst ha
      simp [removeKey, dictGet, Ne.symm h, ih]
    · by_cases hb : a = k2
      · subst hb
        simp [removeKey, ha, dictGet]
      · simp [removeKey, ha, dictGet, hb, ih]

theorem removeKey_of_not_mem {α β : Type} [DecidableEq α] (l : List (α × β)) (k : α)
    (h : dictGet l k = none) : removeKey l k = l := by
  induction l with
  | nil => rfl
  | cons p rest ih =>
    obtain ⟨a, b⟩ := p
    by_cases ha : a = k
    · simp [dictGet, ha] at h
    · simp [dictGet, ha] at h
      simp [removeKey, ha, ih h]

theorem removeKey_dictSet_self {α β : Type} [DecidableEq α] (l : List (α × β)) (k : α) (v : β) :
    removeKey (dictSet l k v) k = removeKey l k := by
  induction l with
  | nil => simp [dictSet, removeKey]
  | cons p rest ih =>
    obtain ⟨a, b⟩ := p
    by_cases ha : a = k <;> simp [dictSet, removeKey, ha, ih]

theorem dictGet_mem {α β : Type} [DecidableEq α] (l : List (α × β)) (k : α) (v : β)
    (h : dictGet l k = some v) : (k, v) ∈ l := by
  induction l with
  | nil => simp [dictGet] at h
  | cons p rest ih =>
    obtain ⟨a, b⟩ := p
    by_cases ha : a = k
    · subst ha
      simp [dictGet] at h
      simp [h]
    · simp [dictGet, ha] at h
      exact List.mem_cons_of_mem _ (ih h)

theorem removeKey_ne_nil {α β : Type} [DecidableEq α] (l : List (α × β)) (k : α)
    (hnd : (l.map Prod.fst).Nodup) (hlen : 1 < l.length) : removeKey l k ≠ [] := by
  induction l with
  | nil => simp at hlen
  | cons p rest ih =>
    obtain ⟨a, b⟩ := p
    simp only [List.map_cons, List.nodup_cons] at hnd
    by_cases ha : a = k
    · subst ha
      have hrk : removeKey ((a, b) :: rest) a = rest := by
        have h2 : removeKey rest a = rest := by
          apply removeKey_of_not_mem
          cases hr : dictGet rest a with
          | none => rfl
          | some v => exact absurd (List.mem_map_of_mem Prod.fst (dictGet_mem rest a v hr)) hnd.1
        simp [removeKey, h2]
      rw [hrk]
      apply List.ne_nil_of_length_pos
      simp at hlen
      omega
    · simp [removeKey, ha]

/-! ## Data model

`FertilizerDefinition` entries of `F_DATA` / `fertilizer_data`: a
`schedule` mapping week number to dosage per litre, plus the
`ec_contribution_factor`. -/

structure FertData where
  schedule : List (Int × ℚ)
  ec_contribution_factor : ℚ
deriving DecidableEq

structure SchemeData where
  fertilizer_data : List (String × FertData)
  ec_values : List (Int × ℚ)
deriving DecidableEq

def emptySchemeData : SchemeData := ⟨[], []⟩

/-! ## Dosing resolution (`calculate_fertilizer_amount`, `get_ec_value`) -/

/-- `max(d.keys()) if d else 1`: the largest week key of a schedule or
EC table, defaulting to `1` for the empty table (as in the source). -/
def maxKey : List (Int × ℚ) → Int
  | [] => 1
  | (k, _) :: rest => (rest.map Prod.fst).foldl max k

/-- `effective_week = min(week, max_defined_week) if week > 0 else 1`,
the clamping used by both `calculate_fertilizer_amount` and
`get_ec_value`. -/
def effective_week (week maxW : Int) : Int :=
  if week > 0 then min week maxW else 1

/-- `calculate_fertilizer_amount(week, water_amount, fertilizer_type)`.
The global `F_DATA` (the active scheme's fertilizer table, `None` when
the configuration is not loaded) is passed explicitly.  Returns `none`
where the source returns Python `None`, and `some amount` otherwise. -/
def calculate_fertilizer_amount (fdata : Option (List (String × FertData)))
    (week : Int) (water_amount : ℚ) (fertilizer_type : String) : Option ℚ :=
  match fdata with
  | none => none
  | some fd =>
    match dictGet fd fertilizer_type with
    | none => none
    | some details =>
      match details.schedule with
      | [] => some 0
      | _ =>
        match dictGet details.schedule (effective_week week (maxKey details.schedule)) with
        | none => some 0
        | some dosage_per_liter => some (dosage_per_liter * water_amount)

/-- `get_ec_value(week)`.  The global `EC_TARGET_VALUES` (the active
scheme's EC curve, `None` when not loaded) is passed explicitly. -/
def get_ec_value (ec_target_values : Option (List (Int × ℚ))) (week : Int) : Option ℚ :=
  match ec_target_values with
  | none => none
  | some m =>
    match m with
    | [] => none
    | _ => dictGet m (effective_week week (maxKey m))

/-! ## Inverse EC calculation (`berechne_menge_fuer_ec_anpassung`) -/

/-- `berechne_menge_fuer_ec_anpassung(EC_ist, EC_soll, wassermenge_liter,
ec_factor)`: dosage in ml needed to raise the solution from `EC_ist` to
`EC_soll`. -/
def berechne_menge_fuer_ec_anpassung (EC_ist EC_soll wassermenge_liter ec_factor : ℚ) : ℚ :=
  if EC_ist ≥ EC_soll then 0
  else if ec_factor ≤ 0 then 0
  else max 0 ((EC_soll - EC_ist) / ec_factor * wassermenge_liter)

/-- Outcomes of the EC-helper flow `duenger_berechnen` (input errors map
to the `ValueError` branch shown as "Eingabefehler"). -/
inductive EcInputError where
  | negativeCurrentEc
  | nonPositiveWater
  | nonPositiveTarget
  | factorNotFound
  | invalidEcFactor
deriving DecidableEq

inductive EcHelperResult where
  | inputError (e : EcInputError)
  | atTarget
  | amount (ml : ℚ)
deriving DecidableEq

/-- The validation-and-computation core of `duenger_berechnen` in the EC
helper: the already-parsed numeric inputs are validated in source
order, then the fertilizer's EC factor (`none` when the factor cannot
be found in `F_DATA`) is validated, then
`berechne_menge_fuer_ec_anpassung` is called.  `manual` tells whether
the target EC came from the manual entry field (only then is the
`ec_soll <= 0` check performed). -/
def duenger_berechnen (ec_ist ec_soll wassermenge : ℚ) (manual : Bool)
    (ec_factor : Option ℚ) : EcHelperResult :=
  if ec_ist < 0 then .inputError .negativeCurrentEc
  else if wassermenge ≤ 0 then .inputError .nonPositiveWater
  else if manual ∧ ec_soll ≤ 0 then .inputError .nonPositiveTarget
  else if ec_ist ≥ ec_soll then .atTarget
  else
    match ec_factor with
    | none => .inputError .factorNotFound
    | some f =>
      if f ≤ 0 then .inputError .invalidEcFactor
      else .amount (berechne_menge_fuer_ec_anpassung ec_ist ec_soll wassermenge f)

/-! ## Schedule string parsing (`parse_schedule_string`)

Python string primitives are modelled over `List Char`:
`str.strip()` removes leading/trailing whitespace, `str.split(sep)`
splits on every occurrence of the separator keeping empty pieces,
`int(s)` accepts an optional sign followed by digits, `float(s)`
accepts an optional sign, a digit/point mantissa and an optional
decimal exponent (the rarer forms `inf`, `nan` and underscore
separators are not modelled). -/

def pyStrip (l : List Char) : List Char :=
  ((l.dropWhile Char.isWhitespace).reverse.dropWhile Char.isWhitespace).reverse

def pySplitAux (sep : Char) : List Char → List Char → List (List Char)
  | [], acc => [acc.reverse]
  | c :: rest, acc =>
    if c = sep then acc.reverse :: pySplitAux sep rest []
    else pySplitAux sep rest (c :: acc)

def pySplit (l : List Char) (sep : Char) : List (List Char) :=
  pySplitAux sep l []

def digitToNat (c : Char) : Nat := c.toNat - 48

def digitsToNat (l : List Char) : Nat :=
  l.foldl (fun n c => 10 * n + digitToNat c) 0

/-- Python `int(s)` on an already-stripped string. -/
def parseInt? (l : List Char) : Option Int :=
  match l with
  | [] => none
  | '+' :: rest =>
    if rest.isEmpty || !(rest.all Char.isDigit) then none
    else some (Int.ofNat (digitsToNat rest))
  | '-' :: rest =>
    if rest.isEmpty || !(rest.all Char.isDigit) then none
    else some (-(Int.ofNat (digitsToNat rest)))
  | _ =>
    if !(l.all Char.isDigit) then none
    else some (Int.ofNat (digitsToNat l))

/-- Splits an optional leading sign: returns (isNegative, rest). -/
def parseSign : List Char → Bool × List Char
  | '+' :: rest => (false, rest)
  | '-' :: rest => (true, rest)
  | l => (false, l)

/-- Unsigned mantissa: `digits`, `digits.`, `digits.digits` or `.digits`. -/
def parseMantissa? (l : List Char) : Option ℚ :=
  match l.span Char.isDigit with
  | (ip, rest) =>
    match rest with
    | [] => if ip.isEmpty then none else some (digitsToNat ip : ℚ)
    | '.' :: fp =>
      if fp.all Char.isDigit && !(ip.isEmpty && fp.isEmpty) then
        some ((digitsToNat ip : ℚ) + (digitsToNat fp : ℚ) / (10 : ℚ) ^ fp.length)
      else none
    | _ => none

/-- Mantissa and optional exponent part split at the first `e`/`E`. -/
def splitExp (l : List Char) : List Char × Option (List Char) :=
  match l.span (fun c => c != 'e' && c != 'E') with
  | (m, rest) =>
    match rest with
    | [] => (m, none)
    | _ :: ex => (m, some ex)

/-- Python `float(s)` on an already-stripped string (exact rational
value; no `inf`/`nan`/underscores). -/
def parseFloat? (l : List Char) : Option ℚ :=
  match splitExp l with
  | (mantPart, expPart) =>
    match parseSign mantPart with
    | (neg, body) =>
      match parseMantissa? body with
      | none => none
      | some m =>
        let signed : ℚ := if neg then -m else m
        match expPart with
        | none => some signed
        | some ex =>
          match parseSign ex with
          | (eneg, edigits) =>
            if edigits.isEmpty || !(edigits.all Char.isDigit) then none
            else
              let e : Int :=
                if eneg then -(Int.ofNat (digitsToNat edigits))
                else Int.ofNat (digitsToNat edigits)
              some (signed * (10 : ℚ) ^ e)

/-- The `try` body of the parsing loop for one stripped part: the colon
unpacking (`week_str, dosage_str = part.split(':')` fails unless the
split yields exactly two pieces), the `int`/`float` conversions and the
positive-week check.  `none` corresponds to the `ValueError` branch. -/
def parseEntry? (q : List Char) : Option (Int × ℚ) :=
  match pySplit q ':' with
  | [ws, ds] =>
    match parseInt? (pyStrip ws), parseFloat? (pyStrip ds) with
    | some w, some d => if w ≤ 0 then none else some (w, d)
    | _, _ => none
  | _ => none

/-- One `part` of the comma-split input is malformed: after stripping it
is non-empty and its entry fails to parse. -/
def partMalformed (p : List Char) : Bool :=
  !(pyStrip p).isEmpty && (parseEntry? (pyStrip p)).isNone

/-- The `for part in parts` loop of `parse_schedule_string`: builds the
schedule dict, returning `none` (Python `None`) at the first malformed
part; stripped-empty parts are skipped. -/
def parseParts : List (List Char) → List (Int × ℚ) → Option (List (Int × ℚ))
  | [], acc => some acc
  | p :: rest, acc =>
    if (pyStrip p).isEmpty then parseParts rest acc
    else
      match parseEntry? (pyStrip p) with
      | some (w, d) => parseParts rest (dictSet acc w d)
      | none => none

/-- `parse_schedule_string(schedule_str)`: returns the parsed schedule
dict, or `none` (Python `None`) on a format error. -/
def parse_schedule_string (schedule_str : String) : Option (List (Int × ℚ)) :=
  if (pyStrip schedule_str.data).isEmpty then some []
  else parseParts (pySplit schedule_str.data ',') []

/-! ## Scheme repository (`ALL_SCHEMES` / `ACTIVE_SCHEME_NAME` and the
scheme-manager operations)

The mutable scheme objects held by the Python dict `ALL_SCHEMES` are
modelled by a store from addresses to `SchemeData`; `ALL_SCHEMES`
itself maps scheme names to addresses.  `copy.deepcopy` allocates a
fresh address carrying the same value; an in-place mutation of a scheme
updates the store at that scheme's address. -/

structure RepoState where
  store : Nat → SchemeData
  nextAddr : Nat
  schemes : List (String × Nat)
  active : String

/-- Store update at one address (in-place mutation of a scheme object). -/
def storeSet (σ : Nat → SchemeData) (a : Nat) (v : SchemeData) : Nat → SchemeData :=
  fun x => if x = a then v else σ x

/-- The scheme value observable under a name (`ALL_SCHEMES[n]`). -/
def valueMap (st : RepoState) (n : String) : Option SchemeData :=
  (dictGet st.schemes n).map st.store

/-- Every address referenced by `schemes` has already been allocated. -/
def WF (st : RepoState) : Prop := ∀ p ∈ st.schemes, p.2 < st.nextAddr

instance (st : RepoState) : Decidable (WF st) := by
  unfold WF
  infer_instance

inductive OpResult where
  | ok
  | noop
  | duplicateName
  | lastScheme
  | saveFailed
  | unknown
deriving DecidableEq

/-- `set_active_scheme` (scheme-manager "Als Aktiv" button): if the
selected scheme is already active nothing happens; otherwise the global
active name is set and a save is attempted.  There is no rollback of
the active name when the save fails. -/
def set_active_scheme (st : RepoState) (name : String) (_saveOk : Bool) : RepoState :=
  if name = st.active then st
  else { st with active := name }

/-- `create_new_scheme`: duplicate names are rejected; with a source
scheme present the new scheme is a deep copy of it (fresh address, same
value), otherwise it starts empty; on save failure the new entry is
deleted again (`del ALL_SCHEMES[new_scheme_name]`). -/
def create_new_scheme (st : RepoState) (newName : String) (src : Option String)
    (saveOk : Bool) : OpResult × RepoState :=
  if (dictGet st.schemes newName).isSome then (.duplicateName, st)
  else
    let data : SchemeData :=
      match src with
      | some s =>
        match dictGet st.schemes s with
        | some a => st.store a
        | none => emptySchemeData
      | none => emptySchemeData
    let st1 : RepoState :=
      { store := storeSet st.store st.nextAddr data
        nextAddr := st.nextAddr + 1
        schemes := dictSet st.schemes newName st.nextAddr
        active := st.active }
    if saveOk then (.ok, st1)
    else (.saveFailed, { st1 with schemes := removeKey st1.schemes newName })

/-- `delete_selected_scheme`: refuses to delete the last scheme; if the
deleted scheme was active, the first remaining scheme becomes active;
on save failure the backup (`copy.deepcopy`, hence a fresh address with
the original value) is re-inserted and the active name restored. -/
def delete_selected_scheme (st : RepoState) (name : String) (saveOk : Bool) :
    OpResult × RepoState :=
  if st.schemes.length ≤ 1 then (.lastScheme, st)
  else
    let backupVal : SchemeData :=
      match dictGet st.schemes name with
      | some a => st.store a
      | none => emptySchemeData
    let schemes1 := removeKey st.schemes name
    let newActive : String :=
      if name = st.active then
        match schemes1 with
        | [] => st.active
        | p :: _ => p.1
      else st.active
    if saveOk then (.ok, { st with schemes := schemes1, active := newActive })
    else
      (.saveFailed,
        { store := storeSet st.store st.nextAddr backupVal
          nextAddr := st.nextAddr + 1
          schemes := dictSet schemes1 name st.nextAddr
          active := st.active })

/-- `rename_selected_scheme`: no-op when the name is unchanged,
duplicate target names are rejected, the binding is moved
(`ALL_SCHEMES[new_name] = ALL_SCHEMES.pop(old_name)`, same object), the
active pointer follows a renamed active scheme, and a failed save moves
the binding back and restores the active name. -/
def rename_selected_scheme (st : RepoState) (old new : String) (saveOk : Bool) :
    OpResult × RepoState :=
  if new = old then (.noop, st)
  else if (dictGet st.schemes new).isSome then (.duplicateName, st)
  else
    match dictGet st.schemes old with
    | none => (.unknown, st)
    | some a =>
      let schemes1 := dictSet (removeKey st.schemes old) new a
      let active1 := if old = st.active then new else st.active
      if saveOk then (.ok, { st with schemes := schemes1, active := active1 })
      else
        (.saveFailed,
          { st with schemes := dictSet (removeKey schemes1 new) old a, active := st.active })

/-- The `on_save` mutation of the fertilizer add/edit dialog
(`open_fertilizer_dialog`): a name collision with a different existing
fertilizer is rejected; on a rename the old entry is deleted; the new
data is stored at the scheme's address.  On save failure the code
explicitly does NOT roll back (`pass`), so the mutated state is kept
either way. -/
def upsert_fertilizer (st : RepoState) (schemeName : String) (origName : Option String)
    (newName : String) (sched : List (Int × ℚ)) (ecf : ℚ) (saveOk : Bool) :
    OpResult × RepoState :=
  match dictGet st.schemes schemeName with
  | none => (.unknown, st)
  | some a =>
    let fd := (st.store a).fertilizer_data
    if origName ≠ some newName ∧ (dictGet fd newName).isSome then (.duplicateName, st)
    else
      let fd1 : List (String × FertData) :=
        match origName with
        | some o => if o ≠ newName then removeKey fd o else fd
        | none => fd
      let fd2 := dictSet fd1 newName ⟨sched, ecf⟩
      let st1 : RepoState :=
        { st with store := storeSet st.store a { st.store a with fertilizer_data := fd2 } }
      (if saveOk then OpResult.ok else OpResult.saveFailed, st1)

/-- `delete_selected_fertilizer`: removes the fertilizer from the
scheme's dict after taking a deep-copied backup of the whole
`fertilizer_data`; a failed save restores the backup. -/
def delete_fertilizer (st : RepoState) (schemeName fertName : String) (saveOk : Bool) :
    OpResult × RepoState :=
  match dictGet st.schemes schemeName with
  | none => (.unknown, st)
  | some a =>
    if (dictGet (st.store a).fertilizer_data fertName).isSome then
      let backup := (st.store a).fertilizer_data
      let fd1 := removeKey (st.store a).fertilizer_data fertName
      let st1 : RepoState :=
        { st with store := storeSet st.store a { st.store a with fertilizer_data := fd1 } }
      if saveOk then (.ok, st1)
      else
        (.saveFailed,
          { st with store := storeSet st.store a { st.store a with fertilizer_data := backup } })
    else (.unknown, st)

/-! ## Startup invariant check (`initialize_config_and_exit_on_error`) -/

/-- The load-time guard `ACTIVE_SCHEME_NAME not in ALL_SCHEMES` of the
startup routine: returns `true` exactly when startup may continue. -/
def config_load_check (schemes : List (String × SchemeData)) (active : String) : Bool :=
  (dictGet schemes active).isSome

/-- Builds the repository heap from loaded configuration data, one
address per scheme in file order. -/
def buildSchemes : List (String × SchemeData) → Nat → List (String × Nat)
  | [], _ => []
  | (n, _) :: rest, i => (n, i) :: buildSchemes rest (i + 1)

def load_repo (l : List (String × SchemeData)) (active : String) : RepoState :=
  { store := fun a => match l.get? a with | some p => p.2 | none => emptySchemeData
    nextAddr := l.length
    schemes := buildSchemes l 0
    active := active }

/-- The repository invariant: the active name is bound in `schemes`. -/
def ActiveInvariant (st : RepoState) : Prop :=
  (dictGet st.schemes st.active).isSome = true

instance (st : RepoState) : Decidable (ActiveInvariant st) := by
  unfold ActiveInvariant
  infer_instance

/-! ## Claim theorems -/

/-- Claim C2: for a non-empty schedule (and non-empty EC curve) with
largest defined week `max_week ≥ 1`, resolution uses effective key `w`
when `1 ≤ w ≤ max_week`, uses `max_week` when `w > max_week` (so both
the dosage and the EC lookup saturate: `resolve(w) = resolve(max_week)`),
and uses key `1` when `w < 1`. -/
theorem claim_C2_week_clamping (fd : List (String × FertData)) (ftype : String)
    (det : FertData) (ec : List (Int × ℚ)) (w : Int) (water : ℚ)
    (hdet : dictGet fd ftype = some det) (hne : det.schedule ≠ [])
    (hmax : 1 ≤ maxKey det.schedule)
    (hecne : ec ≠ []) (hecmax : 1 ≤ maxKey ec) :
    (1 ≤ w → w ≤ maxKey det.schedule → effective_week w (maxKey det.schedule) = w) ∧
    (maxKey det.schedule < w →
      effective_week w (maxKey det.schedule) = maxKey det.schedule ∧
      calculate_fertilizer_amount (some fd) w water ftype =
        calculate_fertilizer_amount (some fd) (maxKey det.schedule) water ftype) ∧
    (w < 1 → effective_week w (maxKey det.schedule) = 1) ∧
    (maxKey ec < w → get_ec_value (some ec) w = get_ec_value (some ec) (maxKey ec)) ∧
    (w < 1 → get_ec_value (some ec) w = get_ec_value (some ec) 1) := by
  refine ⟨?_, ?_, ?_, ?_, ?_⟩
  · intro h1 h2
    simp [effective_week]
    omega
  · intro h
    have heff : effective_week w (maxKey det.schedule) = maxKey det.schedule := by
      simp [effective_week]
      omega
    have heff2 : effective_week (maxKey det.schedule) (maxKey det.schedule) =
        maxKey det.schedule := by
      simp [effective_week]
      omega
    refine ⟨heff, ?_⟩
    simp only [calculate_fertilizer_amount, hdet]
    cases hs : det.schedule with
    | nil => exact absurd hs hne
    | cons p rest =>
      rw [← hs, heff, heff2]
  · intro h
    simp [effective_week]
    omega
  · intro h
    have heff : effective_week w (maxKey ec) = maxKey ec := by
      simp [effective_week]
      omega
    have heff2 : effective_week (maxKey ec) (maxKey ec) = maxKey ec := by
      simp [effective_week]
      omega
    simp only [get_ec_value]
    cases hs : ec with
    | nil => exact absurd hs hecne
    | cons p rest =>
      rw [← hs, heff, heff2]
  · intro h
    have heff : effective_week w (maxKey ec) = 1 := by
      simp [effective_week]
      omega
    have heff2 : effective_week 1 (maxKey ec) = 1 := by
      simp [effective_week]
      omega
    simp only [get_ec_value]
    cases hs : ec with
    | nil => exact absurd hs hecne
    | cons p rest =>
      rw [← hs, heff, heff2]

/-- Witness for claim C2: a concrete schedule `{1:2, 2:2, 3:4}` with
`max_week = 3`, EC curve `{1:1.2, 3:1.6}`, queried at week 5. -/
theorem claim_C2_week_clamping_witness :
    dictGet [("Grow", (⟨[(1, 2), (2, 2), (3, 4)], 478⟩ : FertData))] "Grow" =
        some ⟨[(1, 2), (2, 2), (3, 4)], 478⟩ ∧
    calculate_fertilizer_amount (some [("Grow", ⟨[(1, 2), (2, 2), (3, 4)], 478⟩)]) 5 2 "Grow" =
      calculate_fertilizer_amount (some [("Grow", ⟨[(1, 2), (2, 2), (3, 4)], 478⟩)]) 3 2 "Grow" := by
  constructor
  · decide
  · exact ((claim_C2_week_clamping
      [("Grow", ⟨[(1, 2), (2, 2), (3, 4)], 478⟩)] "Grow" ⟨[(1, 2), (2, 2), (3, 4)], 478⟩
      [(1, 12/10), (3, 16/10)] 5 2 (by decide) (by decide) (by decide) (by decide)
      (by decide)).2.1 (by decide)).2

/-- Claim C3: with `ec_factor > 0` the inverse EC calculation returns
exactly 0 when `ec_now ≥ ec_target` and otherwise
`max(0, (ec_target - ec_now) / ec_factor * water_litres)`; it returns 0
whenever `ec_now = ec_target`, the concrete scenario
`(400, 1200, 5, 478)` yields `(800/478)*5 = 2000/239 ≈ 8.368`, and
`(1200, 1000)` yields 0. -/
theorem claim_C3_inverse_ec (EC_ist EC_soll wasser f : ℚ) (hf : 0 < f) :
    (EC_ist ≥ EC_soll → berechne_menge_fuer_ec_anpassung EC_ist EC_soll wasser f = 0) ∧
    (EC_ist < EC_soll → berechne_menge_fuer_ec_anpassung EC_ist EC_soll wasser f =
      max 0 ((EC_soll - EC_ist) / f * wasser)) ∧
    (∀ ec L f2 : ℚ, berechne_menge_fuer_ec_anpassung ec ec L f2 = 0) ∧
    berechne_menge_fuer_ec_anpassung 400 1200 5 478 = 2000 / 239 ∧
    (∀ L f2 : ℚ, berechne_menge_fuer_ec_anpassung 1200 1000 L f2 = 0) := by
  refine ⟨?_, ?_, ?_, ?_, ?_⟩
  · intro h
    simp [berechne_menge_fuer_ec_anpassung, h]
  · intro h
    rw [berechne_menge_fuer_ec_anpassung, if_neg (by exact not_le.mpr h),
      if_neg (by exact not_le.mpr hf)]
  · intro ec L f2
    simp [berechne_menge_fuer_ec_anpassung]
  · norm_num [berechne_menge_fuer_ec_anpassung]
  · intro L f2
    norm_num [berechne_menge_fuer_ec_anpassung]

/-- Witness for claim C3 at the spec's concrete scenario. -/
theorem claim_C3_inverse_ec_witness :
    (0 : ℚ) < 478 ∧
    berechne_menge_fuer_ec_anpassung 400 1200 5 478 = 2000 / 239 :=
  ⟨by norm_num, (claim_C3_inverse_ec 400 1200 5 478 (by norm_num)).2.2.2.1⟩

/-- Claim C4 counterexample: for a fertilizer whose schedule table is
empty, the forward dosage lookup does NOT signal an error — it returns
the numeric dose `0.0` (the source prints a warning and returns `0.0`,
as its own docstring states). -/
theorem claim_C4_empty_schedule_counterexample :
    calculate_fertilizer_amount (some [("A", ⟨[], 478⟩)]) 3 2 "A" = some 0 ∧
    calculate_fertilizer_amount (some [("A", ⟨[], 478⟩)]) 3 2 "A" ≠ none := by
  constructor <;> decide

/-- Claim C4 (amended): when a fertilizer's schedule table is empty the
forward dosage lookup returns the numeric dose `0.0` (with a console
warning) rather than signalling an error; when the EC curve is empty,
the EC target lookup returns the undefined result `None`. -/
theorem claim_C4_empty_tables (fd : List (String × FertData)) (ftype : String)
    (det : FertData) (w : Int) (water : ℚ)
    (hdet : dictGet fd ftype = some det) (hempty : det.schedule = []) :
    calculate_fertilizer_amount (some fd) w water ftype = some 0 ∧
    get_ec_value (some []) w = none := by
  constructor
  · simp [calculate_fertilizer_amount, hdet, hempty]
  · simp [get_ec_value]

/-- Witness for the amended claim C4 at a concrete empty-schedule
fertilizer. -/
theorem claim_C4_empty_tables_witness :
    dictGet [("A", (⟨[], 478⟩ : FertData))] "A" = some ⟨[], 478⟩ ∧
    calculate_fertilizer_amount (some [("A", ⟨[], 478⟩)]) 7 3 "A" = some 0 :=
  ⟨by decide, (claim_C4_empty_tables [("A", ⟨[], 478⟩)] "A" ⟨[], 478⟩ 7 3
    (by decide) (by decide)).1⟩

/-- Claim C6: for `ec_factor ≤ 0` the inverse EC calculation never
performs the division (the guarded function returns 0 without reaching
the division), the EC-helper flow never produces a computed dosage, and
whenever the flow reaches the calculation (all prior validations pass
and `ec_now < ec_target`) the condition is surfaced as the
invalid-EC-factor input error. -/
theorem claim_C6_invalid_factor (ist soll wasser f : ℚ) (manual : Bool) (hf : f ≤ 0) :
    berechne_menge_fuer_ec_anpassung ist soll wasser f = 0 ∧
    (∀ q : ℚ, duenger_berechnen ist soll wasser manual (some f) ≠ .amount q) ∧
    (0 ≤ ist → 0 < wasser → ist < soll →
      duenger_berechnen ist soll wasser manual (some f) =
        .inputError .invalidEcFactor) := by
  refine ⟨?_, ?_, ?_⟩
  · by_cases h : ist ≥ soll
    · simp [berechne_menge_fuer_ec_anpassung, h]
    · simp [berechne_menge_fuer_ec_anpassung, h, hf]
  · intro q
    unfold duenger_berechnen
    by_cases h1 : ist < 0
    · simp [h1]
    · by_cases h2 : wasser ≤ 0
      · simp [h1, h2]
      · by_cases h3 : manual ∧ soll ≤ 0
        · simp [h1, h2, h3]
        · by_cases h4 : ist ≥ soll
          · simp [h1, h2, h3, h4]
          · simp [h1, h2, h3, h4, hf]
  · intro hist hw hls
    unfold duenger_berechnen
    have h1 : ¬ist < 0 := not_lt.mpr hist
    have h2 : ¬wasser ≤ 0 := not_le.mpr hw
    have h3 : ¬(manual ∧ soll ≤ 0) := by
      rintro ⟨-, hc⟩
      exact absurd (lt_of_le_of_lt hist hls) (not_lt.mpr hc)
    have h4 : ¬ist ≥ soll := not_le.mpr hls
    simp [h1, h2, h3, h4, hf]

/-- Witness for claim C6 at a concrete zero EC factor. -/
theorem claim_C6_invalid_factor_witness :
    (0 : ℚ) ≤ 0 ∧ (0 : ℚ) ≤ 400 ∧ (0 : ℚ) < 5 ∧ (400 : ℚ) < 1200 ∧
    duenger_berechnen 400 1200 5 true (some 0) = .inputError .invalidEcFactor :=
  ⟨le_refl 0, by norm_num, by norm_num, by norm_num,
    (claim_C6_invalid_factor 400 1200 5 0 true (le_refl 0)).2.2
      (by norm_num) (by norm_num) (by norm_num)⟩

/-- Claim C10: the inverse EC calculation is total and its result is
non-negative for every rational input whatsoever, including
`ec_factor ≤ 0`, negative EC values and non-positive water volumes. -/
theorem claim_C10_never_negative (ist soll wasser f : ℚ) :
    0 ≤ berechne_menge_fuer_ec_anpassung ist soll wasser f := by
  unfold berechne_menge_fuer_ec_anpassung
  by_cases h1 : ist ≥ soll
  · simp [h1]
  · by_cases h2 : f ≤ 0
    · simp [h1, h2]
    · simp [h1, h2]

/-- Processing any list of parts that contains a malformed one yields
`none`, whatever schedule entries were accumulated before it. -/
theorem parseParts_malformed (ps : List (List Char)) :
    ps.any partMalformed = true → ∀ acc, parseParts ps acc = none := by
  induction ps with
  | nil => simp
  | cons p rest ih =>
    intro h acc
    rw [List.any_cons] at h
    unfold parseParts
    by_cases he : (pyStrip p).isEmpty
    · rw [if_pos he]
      have hp : partMalformed p = false := by simp [partMalformed, he]
      rw [hp] at h
      rw [Bool.false_or] at h
      exact ih h acc
    · rw [if_neg he]
      cases hent : parseEntry? (pyStrip p) with
      | none => rfl
      | some wd =>
        obtain ⟨w, d⟩ := wd
        have hp : partMalformed p = false := by simp [partMalformed, he, hent]
        rw [hp] at h
        rw [Bool.false_or] at h
        exact ih h _

/-- Claim C9: an all-whitespace or empty input parses successfully to
the empty schedule, and any input containing a malformed entry (after
stripping: missing or extra colon, non-integer week, non-positive week,
or non-numeric dose) is rejected as a whole — the parser returns `None`
and no partial schedule is produced. -/
theorem claim_C9_schedule_parsing (s t : String)
    (hs : (pyStrip s.data).isEmpty = true)
    (ht : (pyStrip t.data).isEmpty = false)
    (hmal : (pySplit t.data ',').any partMalformed = true) :
    parse_schedule_string s = some [] ∧ parse_schedule_string t = none := by
  constructor
  · simp [parse_schedule_string, hs]
  · rw [parse_schedule_string, if_neg (by simp [ht])]
    exact parseParts_malformed _ hmal []

/-- Witness for claim C9: the all-whitespace input `"  "` parses to the
empty schedule and `"1:0.5, 0:2"` (non-positive week in its second
entry) is rejected. -/
theorem claim_C9_schedule_parsing_witness :
    (pyStrip "  ".data).isEmpty = true ∧
    (pyStrip "1:0.5, 0:2".data).isEmpty = false ∧
    (pySplit "1:0.5, 0:2".data ',').any partMalformed = true ∧
    parse_schedule_string "1:0.5, 0:2" = none :=
  ⟨by decide, by decide, by decide,
    (claim_C9_schedule_parsing "  " "1:0.5, 0:2" (by decide) (by decide) (by decide)).2⟩

/-! ## Repository helper lemmas and example states -/

theorem storeSet_self (σ : Nat → SchemeData) (a : Nat) (v : SchemeData) :
    storeSet σ a v a = v := by
  simp [storeSet]

theorem storeSet_ne (σ : Nat → SchemeData) (a : Nat) (v : SchemeData) (x : Nat)
    (h : x ≠ a) : storeSet σ a v x = σ x := by
  simp [storeSet, h]

theorem storeSet_eta (σ : Nat → SchemeData) (a : Nat) : storeSet σ a (σ a) = σ := by
  funext x
  by_cases h : x = a
  · subst h
    simp [storeSet]
  · simp [storeSet, h]

def exampleSchemeA : SchemeData := ⟨[("Grow", ⟨[(1, 2), (2, 2), (3, 4)], 478⟩)], [(1, 1)]⟩

def exampleSchemeB : SchemeData := ⟨[("Bloom", ⟨[(4, 1)], 350⟩)], [(4, 2)]⟩

def exampleStore : Nat → SchemeData :=
  fun a => if a = 0 then exampleSchemeA else if a = 1 then exampleSchemeB else emptySchemeData

/-- A two-scheme repository, scheme "A" active. -/
def exampleRepo : RepoState := ⟨exampleStore, 2, [("A", 0), ("B", 1)], "A"⟩

/-- A repository holding a single scheme. -/
def exampleRepoSingle : RepoState := ⟨exampleStore, 2, [("A", 0)], "A"⟩

/-- Claim C1 counterexample: with a failing save, `set_active_scheme`
does NOT roll the in-memory active name back — the newly selected
scheme stays active (the source has no rollback branch there). -/
theorem claim_C1_set_active_counterexample :
    (set_active_scheme exampleRepo "B" false).active = "B" ∧
    (set_active_scheme exampleRepo "B" false).active ≠ exampleRepo.active := by
  constructor
  · decide
  · decide

/-- Claim C1 (amended): on persistence failure, scheme deletion, scheme
renaming, scheme creation and fertilizer deletion fully roll back their
in-memory effect (the name-to-value scheme mapping and the active name
equal their pre-call values), but a failed `set_active_scheme` keeps
the new active name and a failed fertilizer add/edit keeps the mutated
fertilizer data (the source explicitly skips that rollback). -/
theorem claim_C1_rollback (st : RepoState) (delName old new createName : String)
    (aD aO : Nat) (src : Option String)
    (hwf : WF st)
    (hdel : dictGet st.schemes delName = some aD) (hlen : 1 < st.schemes.length)
    (hne : new ≠ old) (hnew : dictGet st.schemes new = none)
    (hold : dictGet st.schemes old = some aO)
    (hfree : dictGet st.schemes createName = none) :
    ((delete_selected_scheme st delName false).1 = .saveFailed ∧
      (∀ n, valueMap (delete_selected_scheme st delName false).2 n = valueMap st n) ∧
      (delete_selected_scheme st delName false).2.active = st.active) ∧
    ((rename_selected_scheme st old new false).1 = .saveFailed ∧
      (∀ n, valueMap (rename_selected_scheme st old new false).2 n = valueMap st n) ∧
      (rename_selected_scheme st old new false).2.active = st.active) ∧
    ((create_new_scheme st createName src false).1 = .saveFailed ∧
      (∀ n, valueMap (create_new_scheme st createName src false).2 n = valueMap st n) ∧
      (create_new_scheme st createName src false).2.active = st.active) ∧
    (∀ sName fName,
      (∀ n, valueMap (delete_fertilizer st sName fName false).2 n = valueMap st n) ∧
      (delete_fertilizer st sName fName false).2.active = st.active) ∧
    (∀ sName orig fName sch ecf,
      (upsert_fertilizer st sName orig fName sch ecf false).2 =
        (upsert_fertilizer st sName orig fName sch ecf true).2) ∧
    (∀ name, (set_active_scheme st name false).active =
      if name = st.active then st.active else name) := by
  have hstore_other : ∀ (v : SchemeData) (n : String),
      (dictGet st.schemes n).map (storeSet st.store st.nextAddr v) =
        (dictGet st.schemes n).map st.store := by
    intro v n
    cases hg : dictGet st.schemes n with
    | none => rfl
    | some a =>
      have ha : a < st.nextAddr := hwf (n, a) (dictGet_mem _ _ _ hg)
      simp [storeSet_ne st.store st.nextAddr v a (Nat.ne_of_lt ha)]
  refine ⟨?_, ?_, ?_, ?_, ?_, ?_⟩
  · -- delete rollback
    have hcond : ¬st.schemes.length ≤ 1 := not_le.mpr hlen
    refine ⟨by simp [delete_selected_scheme, hcond], ?_, by simp [delete_selected_scheme, hcond]⟩
    intro n
    simp only [delete_selected_scheme, if_neg hcond, Bool.false_eq_true, if_false]
    by_cases hn : n = delName
    · subst hn
      simp only [valueMap, dictGet_dictSet_self, hdel]
      simp [storeSet_self]
    · simp only [valueMap]
      rw [dictGet_dictSet_ne _ _ _ _ hn, dictGet_removeKey_ne _ _ _ hn]
      exact hstore_other _ n
  · -- rename rollback
    have hdup : ¬(dictGet st.schemes new).isSome = true := by simp [hnew]
    refine ⟨?_, ?_, ?_⟩
    · simp [rename_selected_scheme, hne, hdup, hold]
    · intro n
      simp only [rename_selected_scheme, if_neg hne, if_neg hdup, hold,
        Bool.false_eq_true, if_false]
      by_cases hno : n = old
      · subst hno
        simp only [valueMap, dictGet_dictSet_self, hold, Option.map_some]
      · simp only [valueMap]
        rw [dictGet_dictSet_ne _ _ _ _ hno]
        by_cases hnn : n = new
        · subst hnn
          rw [dictGet_removeKey_self, hnew]
        · rw [dictGet_removeKey_ne _ _ _ hnn, dictGet_dictSet_ne _ _ _ _ hnn,
            dictGet_removeKey_ne _ _ _ hno]
    · simp [rename_selected_scheme, hne, hdup, hold]
  · -- create rollback
    have hdup : ¬(dictGet st.schemes createName).isSome = true := by simp [hfree]
    have hsch : removeKey (dictSet st.schemes createName st.nextAddr) createName =
        st.schemes := by
      rw [removeKey_dictSet_self, removeKey_of_not_mem _ _ hfree]
    refine ⟨?_, ?_, ?_⟩
    · simp [create_new_scheme, hdup]
    · intro n
      simp only [create_new_scheme, if_neg hdup, Bool.false_eq_true, if_false]
      simp only [valueMap, hsch]
      exact hstore_other _ n
    · simp [create_new_scheme, hdup]
  · -- fertilizer deletion rollback
    intro sName fName
    have hstate : (delete_fertilizer st sName fName false).2 = st := by
      unfold delete_fertilizer
      cases hg : dictGet st.schemes sName with
      | none => rfl
      | some a =>
        by_cases hmem : (dictGet (st.store a).fertilizer_data fName).isSome = true
        · have heta : ({ st.store a with fertilizer_data := (st.store a).fertilizer_data } :
              SchemeData) = st.store a := rfl
          simp only [hmem, if_true, Bool.false_eq_true, if_false, heta, storeSet_eta]
        · simp [hmem]
    rw [hstate]
    exact ⟨fun n => rfl, rfl⟩
  · -- fertilizer upsert is not rolled back: the failed-save state equals
    -- the successful-save state
    intro sName orig fName sch ecf
    unfold upsert_fertilizer
    cases hg : dictGet st.schemes sName with
    | none => rfl
    | some a =>
      by_cases hdup : orig ≠ some fName ∧ (dictGet (st.store a).fertilizer_data fName).isSome
      · simp only [if_pos hdup]
      · simp only [if_neg hdup]
  · -- set_active is not rolled back
    intro name
    unfold set_active_scheme
    by_cases h : name = st.active
    · simp [h]
    · simp [h]

/-- Witness for the amended claim C1 on the two-scheme example
repository: a failed delete of scheme "B" leaves the value mapping and
the active name unchanged. -/
theorem claim_C1_rollback_witness :
    WF exampleRepo ∧
    dictGet exampleRepo.schemes "B" = some 1 ∧
    1 < exampleRepo.schemes.length ∧
    ("C" : String) ≠ "A" ∧
    dictGet exampleRepo.schemes "C" = none ∧
    dictGet exampleRepo.schemes "A" = some 0 ∧
    (delete_selected_scheme exampleRepo "B" false).2.active = exampleRepo.active :=
  ⟨by decide, by decide, by decide, by decide, by decide, by decide,
    (claim_C1_rollback exampleRepo "B" "A" "C" "C" 1 0 none (by decide) (by decide)
      (by decide) (by decide) (by decide) (by decide) (by decide)).1.2.2⟩

/-- Claim C5: deleting a scheme when it is the only remaining one fails
with the last-scheme error and leaves the repository exactly as it
was. -/
theorem claim_C5_last_scheme (st : RepoState) (name : String) (saveOk : Bool)
    (h : st.schemes.length = 1) :
    delete_selected_scheme st name saveOk = (OpResult.lastScheme, st) := by
  unfold delete_selected_scheme
  rw [if_pos (by omega)]

/-- Witness for claim C5 on a one-scheme repository. -/
theorem claim_C5_last_scheme_witness :
    exampleRepoSingle.schemes.length = 1 ∧
    delete_selected_scheme exampleRepoSingle "A" true = (OpResult.lastScheme, exampleRepoSingle) :=
  ⟨rfl, claim_C5_last_scheme exampleRepoSingle "A" true rfl⟩

theorem upsert_schemes_unchanged (st : RepoState) (s : String) (o : Option String)
    (f : String) (sch : List (Int × ℚ)) (ecf : ℚ) (so : Bool) :
    (upsert_fertilizer st s o f sch ecf so).2.schemes = st.schemes := by
  unfold upsert_fertilizer
  cases hg : dictGet st.schemes s with
  | none => rfl
  | some a =>
    by_cases hdup : o ≠ some f ∧ (dictGet (st.store a).fertilizer_data f).isSome
    · simp only [if_pos hdup]
    · simp only [if_neg hdup]

theorem upsert_store_untouched (st : RepoState) (s : String) (o : Option String)
    (f : String) (sch : List (Int × ℚ)) (ecf : ℚ) (so : Bool) (x : Nat)
    (hx : ∀ a, dictGet st.schemes s = some a → x ≠ a) :
    (upsert_fertilizer st s o f sch ecf so).2.store x = st.store x := by
  unfold upsert_fertilizer
  cases hg : dictGet st.schemes s with
  | none => rfl
  | some a =>
    by_cases hdup : o ≠ some f ∧ (dictGet (st.store a).fertilizer_data f).isSome
    · simp only [if_pos hdup]
    · simp only [if_neg hdup]
      exact storeSet_ne _ _ _ _ (hx a hg)

theorem delete_fert_schemes_unchanged (st : RepoState) (s f : String) (so : Bool) :
    (delete_fertilizer st s f so).2.schemes = st.schemes := by
  unfold delete_fertilizer
  cases hg : dictGet st.schemes s with
  | none => rfl
  | some a =>
    by_cases hmem : (dictGet (st.store a).fertilizer_data f).isSome = true
    · cases so <;> simp [hmem]
    · simp [hmem]

theorem delete_fert_store_untouched (st : RepoState) (s f : String) (so : Bool) (x : Nat)
    (hx : ∀ a, dictGet st.schemes s = some a → x ≠ a) :
    (delete_fertilizer st s f so).2.store x = st.store x := by
  unfold delete_fertilizer
  cases hg : dictGet st.schemes s with
  | none => rfl
  | some a =>
    by_cases hmem : (dictGet (st.store a).fertilizer_data f).isSome = true
    · cases so <;> simp [hmem, storeSet_ne _ _ _ _ (hx a hg)]
    · simp [hmem]

theorem valueMap_upsert_other (st : RepoState) (s : String) (o : Option String)
    (f : String) (sch : List (Int × ℚ)) (ecf : ℚ) (so : Bool) (n : String)
    (h : ∀ aS aN, dictGet st.schemes s = some aS → dictGet st.schemes n = some aN → aN ≠ aS) :
    valueMap (upsert_fertilizer st s o f sch ecf so).2 n = valueMap st n := by
  unfold valueMap
  rw [upsert_schemes_unchanged]
  cases hn : dictGet st.schemes n with
  | none => rfl
  | some aN =>
    have := upsert_store_untouched st s o f sch ecf so aN (fun a ha => h a aN ha hn)
    simp [this]

theorem valueMap_delete_fert_other (st : RepoState) (s f : String) (so : Bool) (n : String)
    (h : ∀ aS aN, dictGet st.schemes s = some aS → dictGet st.schemes n = some aN → aN ≠ aS) :
    valueMap (delete_fertilizer st s f so).2 n = valueMap st n := by
  unfold valueMap
  rw [delete_fert_schemes_unchanged]
  cases hn : dictGet st.schemes n with
  | none => rfl
  | some aN =>
    have := delete_fert_store_untouched st s f so aN (fun a ha => h a aN ha hn)
    simp [this]

/-- Claim C7: creating a scheme with an existing name fails with the
duplicate-name error and changes nothing; creating without a template
yields a scheme with empty fertilizers and empty EC curve; creating
from a template yields an independent deep copy — it has the template's
value, and subsequent fertilizer edits (upsert or delete) applied to
either scheme never change the other's value. -/
theorem claim_C7_create_scheme (st : RepoState) (dupName freshName tmpl : String)
    (aT : Nat) (src0 : Option String) (so : Bool)
    (hwf : WF st)
    (hdup : (dictGet st.schemes dupName).isSome = true)
    (hfresh : dictGet st.schemes freshName = none)
    (htmpl : dictGet st.schemes tmpl = some aT) :
    create_new_scheme st dupName src0 so = (OpResult.duplicateName, st) ∧
    valueMap (create_new_scheme st freshName none true).2 freshName = some emptySchemeData ∧
    valueMap (create_new_scheme st freshName (some tmpl) true).2 freshName = valueMap st tmpl ∧
    (∀ (orig : Option String) (f : String) (sch : List (Int × ℚ)) (ecf : ℚ) (so2 : Bool),
      valueMap (upsert_fertilizer (create_new_scheme st freshName (some tmpl) true).2
          freshName orig f sch ecf so2).2 tmpl =
        valueMap (create_new_scheme st freshName (some tmpl) true).2 tmpl ∧
      valueMap (upsert_fertilizer (create_new_scheme st freshName (some tmpl) true).2
          tmpl orig f sch ecf so2).2 freshName =
        valueMap (create_new_scheme st freshName (some tmpl) true).2 freshName ∧
      valueMap (delete_fertilizer (create_new_scheme st freshName (some tmpl) true).2
          freshName f so2).2 tmpl =
        valueMap (create_new_scheme st freshName (some tmpl) true).2 tmpl ∧
      valueMap (delete_fertilizer (create_new_scheme st freshName (some tmpl) true).2
          tmpl f so2).2 freshName =
        valueMap (create_new_scheme st freshName (some tmpl) true).2 freshName) := by
  have hnotdup : ¬(dictGet st.schemes freshName).isSome = true := by simp [hfresh]
  have hik : tmpl ≠ freshName := by
    intro h
    rw [h, hfresh] at htmpl
    cases htmpl
  have hlt : aT < st.nextAddr := hwf (tmpl, aT) (dictGet_mem _ _ _ htmpl)
  have hst1 : (create_new_scheme st freshName (some tmpl) true).2 =
      { store := storeSet st.store st.nextAddr (st.store aT)
        nextAddr := st.nextAddr + 1
        schemes := dictSet st.schemes freshName st.nextAddr
        active := st.active } := by
    simp [create_new_scheme, hnotdup, htmpl]
  have hgetF : dictGet (dictSet st.schemes freshName st.nextAddr) freshName =
      some st.nextAddr := dictGet_dictSet_self _ _ _
  have hgetT : dictGet (dictSet st.schemes freshName st.nextAddr) tmpl = some aT := by
    rw [dictGet_dictSet_ne _ _ _ _ hik]
    exact htmpl
  refine ⟨?_, ?_, ?_, ?_⟩
  · simp [create_new_scheme, hdup]
  · simp [create_new_scheme, hnotdup, valueMap, dictGet_dictSet_self, storeSet_self]
  · rw [hst1]
    simp [valueMap, dictGet_dictSet_self, storeSet_self, htmpl]
  · intro orig f sch ecf so2
    rw [hst1]
    have haddr1 : ∀ aS aN,
        dictGet (dictSet st.schemes freshName st.nextAddr) freshName = some aS →
        dictGet (dictSet st.schemes freshName st.nextAddr) tmpl = some aN → aN ≠ aS := by
      intro aS aN h1 h2
      rw [hgetF] at h1
      rw [hgetT] at h2
      cases h1
      cases h2
      exact Nat.ne_of_lt hlt
    have haddr2 : ∀ aS aN,
        dictGet (dictSet st.schemes freshName st.nextAddr) tmpl = some aS →
        dictGet (dictSet st.schemes freshName st.nextAddr) freshName = some aN → aN ≠ aS := by
      intro aS aN h1 h2
      rw [hgetT] at h1
      rw [hgetF] at h2
      cases h1
      cases h2
      exact (Nat.ne_of_lt hlt).symm
    exact ⟨valueMap_upsert_other _ _ _ _ _ _ _ _ haddr1,
      valueMap_upsert_other _ _ _ _ _ _ _ _ haddr2,
      valueMap_delete_fert_other _ _ _ _ _ haddr1,
      valueMap_delete_fert_other _ _ _ _ _ haddr2⟩

/-- Witness for claim C7 on the two-scheme example repository: creating
"C" from template "B" copies B's value, and editing "C" leaves "B"
unchanged. -/
theorem claim_C7_create_scheme_witness :
    WF exampleRepo ∧
    (dictGet exampleRepo.schemes "A").isSome = true ∧
    dictGet exampleRepo.schemes "C" = none ∧
    dictGet exampleRepo.schemes "B" = some 1 ∧
    valueMap (create_new_scheme exampleRepo "C" (some "B") true).2 "C" =
      valueMap exampleRepo "B" :=
  ⟨by decide, by decide, by decide, by decide,
    (claim_C7_create_scheme exampleRepo "A" "C" "B" 1 none true (by decide) (by decide)
      (by decide) (by decide)).2.2.1⟩

theorem buildSchemes_isSome (l : List (String × SchemeData)) (k : String) :
    ∀ i, (dictGet (buildSchemes l i) k).isSome = (dictGet l k).isSome := by
  induction l with
  | nil => intro i; rfl
  | cons p rest ih =>
    intro i
    obtain ⟨n, d⟩ := p
    by_cases h : n = k <;> simp [buildSchemes, dictGet, h, ih]

/-- Claim C8: the invariant "the active scheme name is bound in the
scheme mapping" is checked at load time (startup continues exactly when
it holds for the loaded repository), and it is preserved by every
delete and rename operation, on both the successful and the
failed-persistence path: when the active scheme is deleted the first
remaining scheme is repointed as active, and when the active scheme is
renamed the pointer follows the new name. -/
theorem claim_C8_active_invariant (l : List (String × SchemeData)) (activeName : String)
    (st : RepoState) (delName old new : String) (so : Bool)
    (hnd : (st.schemes.map Prod.fst).Nodup) (hinv : ActiveInvariant st) :
    (config_load_check l activeName = true ↔ ActiveInvariant (load_repo l activeName)) ∧
    ActiveInvariant (delete_selected_scheme st delName so).2 ∧
    ActiveInvariant (rename_selected_scheme st old new so).2 := by
  refine ⟨?_, ?_, ?_⟩
  · unfold config_load_check ActiveInvariant load_repo
    simp [buildSchemes_isSome]
  · unfold delete_selected_scheme
    by_cases hl : st.schemes.length ≤ 1
    · simp only [if_pos hl]
      exact hinv
    · simp only [if_neg hl]
      cases so with
      | false =>
        simp only [Bool.false_eq_true, if_false]
        unfold ActiveInvariant
        by_cases hda : delName = st.active
        · subst hda
          simp [dictGet_dictSet_self]
        · simp only
          rw [dictGet_dictSet_ne _ _ _ _ (Ne.symm hda),
            dictGet_removeKey_ne _ _ _ (Ne.symm hda)]
          exact hinv
      | true =>
        simp only [if_true]
        unfold ActiveInvariant
        by_cases hda : delName = st.active
        · simp only [if_pos hda]
          cases hs1 : removeKey st.schemes delName with
          | nil => exact absurd hs1 (removeKey_ne_nil st.schemes delName hnd (not_le.mp hl))
          | cons p r =>
            simp [dictGet]
        · simp only [if_neg hda]
          rw [dictGet_removeKey_ne _ _ _ (Ne.symm hda)]
          exact hinv
  · unfold rename_selected_scheme
    by_cases h1 : new = old
    · simp only [if_pos h1]
      exact hinv
    · simp only [if_neg h1]
      by_cases h2 : (dictGet st.schemes new).isSome = true
      · simp only [if_pos h2]
        exact hinv
      · simp only [if_neg h2]
        cases hold : dictGet st.schemes old with
        | none => exact hinv
        | some aO =>
          cases so with
          | false =>
            simp only [Bool.false_eq_true, if_false]
            unfold ActiveInvariant
            by_cases hao : st.active = old
            · rw [hao]
              simp [dictGet_dictSet_self]
            · simp only
              rw [dictGet_dictSet_ne _ _ _ _ hao]
              by_cases han : st.active = new
              · have hinv2 : (dictGet st.schemes new).isSome = true := by
                  rw [← han]
                  exact hinv
                exact absurd hinv2 h2
              · rw [dictGet_removeKey_ne _ _ _ han, dictGet_dictSet_ne _ _ _ _ han,
                  dictGet_removeKey_ne _ _ _ hao]
                exact hinv
          | true =>
            simp only [if_true]
            unfold ActiveInvariant
            by_cases hao : old = st.active
            · simp only [if_pos hao]
              simp [dictGet_dictSet_self]
            · simp only [if_neg hao]
              by_cases han : st.active = new
              · have hinv2 : (dictGet st.schemes new).isSome = true := by
                  rw [← han]
                  exact hinv
                exact absurd hinv2 h2
              · rw [dictGet_dictSet_ne _ _ _ _ han, dictGet_removeKey_ne _ _ _ (Ne.symm hao)]
                exact hinv

/-- Witness for claim C8 on the two-scheme example repository: the load
check passes for its configuration, and deleting the active scheme "A"
preserves the invariant. -/
theorem claim_C8_active_invariant_witness :
    (exampleRepo.schemes.map Prod.fst).Nodup ∧
    ActiveInvariant exampleRepo ∧
    ActiveInvariant (delete_selected_scheme exampleRepo "A" true).2 :=
  ⟨by decide, by decide,
    (claim_C8_active_invariant [("A", emptySchemeData)] "A" exampleRepo "A" "A" "B" true
      (by decide) (by decide)).2.1⟩

end Fertilizers
